import Mathlib

/-!
Verification of the voting-dapp election state machine.

The authoritative mutating rules live in `src/contracts/Voting.sol`
(Solidity 0.8).  We embed the contract shallowly: each `public` function
becomes a Lean function `VState → args → Except VotingError VState`,
where a `require` failure is an `Except.error` and, per EVM revert
semantics, leaves the state unchanged (made explicit by `exec` below).
Addresses are modelled as `Nat`; `uint` values are modelled as `Nat`
(all counts are bounded by the number of distinct addresses and all
timestamps are far below `2^256` in any execution, so Solidity 0.8's
checked-overflow reverts are unreachable and not modelled).
`block.timestamp` and `msg.sender` are explicit arguments.

The HTTP layer (`app.js`, served by Express) adds request validation in
front of some contract calls; the relevant routes are embedded as
`api*` functions further below.
-/

/-- One constructor per distinct `require` message in `Voting.sol`
(plus the message strings, recorded by `requireMessage`). -/
inductive VotingError where
  | onlyAdmin            -- "Only admin can perform this action"
  | notStarted           -- "Election has not started yet"
  | alreadyEnded         -- "Election has already ended"
  | notActive            -- "Election is not active"
  | cannotAddAfterStart  -- "Cannot add candidate after election has started"
  | alreadyRegistered    -- "Voter is already registered"
  | alreadyStarted       -- "Election has already started"
  | noCandidates         -- "No candidates registered"
  | notRegistered        -- "You are not registered to vote"
  | alreadyVoted         -- "You have already voted"
  | invalidCandidate     -- "Invalid candidate"
  | invalidCandidateId   -- "Invalid candidate ID"
  | notEnded             -- "Election has not ended yet"
deriving DecidableEq

/-- The literal `require` message attached to each failure. -/
def requireMessage : VotingError → String
  | .onlyAdmin => "Only admin can perform this action"
  | .notStarted => "Election has not started yet"
  | .alreadyEnded => "Election has already ended"
  | .notActive => "Election is not active"
  | .cannotAddAfterStart => "Cannot add candidate after election has started"
  | .alreadyRegistered => "Voter is already registered"
  | .alreadyStarted => "Election has already started"
  | .noCandidates => "No candidates registered"
  | .notRegistered => "You are not registered to vote"
  | .alreadyVoted => "You have already voted"
  | .invalidCandidate => "Invalid candidate"
  | .invalidCandidateId => "Invalid candidate ID"
  | .notEnded => "Election has not ended yet"

/-- The spec's `ElectionNotActive` failure covers the three `require`s of
the `electionActive` modifier. -/
def ElectionNotActive (e : VotingError) : Prop :=
  e = .notStarted ∨ e = .alreadyEnded ∨ e = .notActive

/-- Solidity `struct Voter` of `Voting.sol`. -/
structure Voter where
  hasVoted : Bool
  votedCandidateId : Nat
  isRegistered : Bool
deriving DecidableEq

/-- Solidity `struct Candidate` of `Voting.sol`. -/
structure Candidate where
  id : Nat
  name : String
  party : String
  proposal : String
  voteCount : Nat
deriving DecidableEq

/-- The contract's storage. `voters` is a total map, like a Solidity
mapping: unwritten addresses hold the zero-initialised record. -/
structure VState where
  admin : Nat
  electionName : String
  startTime : Nat
  endTime : Nat
  electionStarted : Bool
  electionEnded : Bool
  candidates : List Candidate
  voters : Nat → Voter
  totalVotes : Nat

/-- Solidity mapping default value for `Voter`. -/
def initVoter : Voter := { hasVoted := false, votedCandidateId := 0, isRegistered := false }

/-- The constructor of `Voting.sol`: deployer becomes admin, flags start
false, every other slot is zero-initialised. -/
def deployVoting (sender : Nat) (name : String) : VState :=
  { admin := sender
    electionName := name
    startTime := 0
    endTime := 0
    electionStarted := false
    electionEnded := false
    candidates := []
    voters := fun _ => initVoter
    totalVotes := 0 }

/-- Contract `addCandidate`: `onlyAdmin`; requires the election not started;
appends a candidate with id `candidates.length` and zero votes. -/
def addCandidate (s : VState) (sender : Nat) (nm pty prop : String) :
    Except VotingError VState :=
  if sender ≠ s.admin then .error .onlyAdmin
  else if s.electionStarted then .error .cannotAddAfterStart
  else .ok { s with candidates := s.candidates ++
    [{ id := s.candidates.length, name := nm, party := pty, proposal := prop, voteCount := 0 }] }

/-- Contract `registerVoter`: `onlyAdmin`; requires not already registered; sets
`isRegistered := true` and `hasVoted := false` (leaving
`votedCandidateId` untouched, as the Solidity does). -/
def registerVoter (s : VState) (sender voterAddr : Nat) :
    Except VotingError VState :=
  if sender ≠ s.admin then .error .onlyAdmin
  else if (s.voters voterAddr).isRegistered then .error .alreadyRegistered
  else .ok { s with voters := (fun a =>
    if a = voterAddr then
      { s.voters voterAddr with isRegistered := true, hasVoted := false }
    else s.voters a) }

/-- Contract `startElection`: `onlyAdmin`; requires not started and at least one
candidate; sets the flags and the `[startTime, endTime]` window.  Note:
the contract performs no check on `durationInMinutes`. -/
def startElection (s : VState) (sender durationInMinutes now : Nat) :
    Except VotingError VState :=
  if sender ≠ s.admin then .error .onlyAdmin
  else if s.electionStarted then .error .alreadyStarted
  else if s.candidates.length = 0 then .error .noCandidates
  else .ok { s with electionStarted := true, startTime := now,
                    endTime := now + durationInMinutes * 60 }

/-- Increment `candidates[cid].voteCount`. -/
def incrementVoteCount : List Candidate → Nat → List Candidate
  | [], _ => []
  | c :: cs, 0 => { c with voteCount := c.voteCount + 1 } :: cs
  | c :: cs, Nat.succ n => c :: incrementVoteCount cs n

/-- Contract `vote`: the `electionActive` modifier's three `require`s, then the
registration / double-vote / candidate-range checks, in source order;
on success marks the voter, bumps the candidate and `totalVotes`. -/
def vote (s : VState) (sender cid now : Nat) : Except VotingError VState :=
  if ¬ s.electionStarted then .error .notStarted
  else if s.electionEnded then .error .alreadyEnded
  else if ¬ (s.startTime ≤ now ∧ now ≤ s.endTime) then .error .notActive
  else if ¬ (s.voters sender).isRegistered then .error .notRegistered
  else if (s.voters sender).hasVoted then .error .alreadyVoted
  else if ¬ cid < s.candidates.length then .error .invalidCandidate
  else .ok { s with
    voters := (fun a =>
      if a = sender then
        { s.voters sender with hasVoted := true, votedCandidateId := cid }
      else s.voters a)
    candidates := incrementVoteCount s.candidates cid
    totalVotes := s.totalVotes + 1 }

/-- Contract `endElection`: `onlyAdmin` then the same `electionActive` modifier
as `vote`; on success sets `electionEnded := true`. -/
def endElection (s : VState) (sender now : Nat) : Except VotingError VState :=
  if sender ≠ s.admin then .error .onlyAdmin
  else if ¬ s.electionStarted then .error .notStarted
  else if s.electionEnded then .error .alreadyEnded
  else if ¬ (s.startTime ≤ now ∧ now ≤ s.endTime) then .error .notActive
  else .ok { s with electionEnded := true }

/-- Contract view `getResults`: requires the election ended, then returns the
ids, names and vote counts of all candidates, in storage order. -/
def getResults (s : VState) :
    Except VotingError (List Nat × List String × List Nat) :=
  if ¬ s.electionEnded then .error .notEnded
  else .ok (s.candidates.map (fun c => c.id),
            s.candidates.map (fun c => c.name),
            s.candidates.map (fun c => c.voteCount))

/-- Contract view `hasVoted`. -/
def hasVoted (s : VState) (v : Nat) : Bool := (s.voters v).hasVoted

/-- The five state-changing operations, tagged with their
`msg.sender` and (where the code reads it) `block.timestamp`. -/
inductive Op where
  | addCandidate (sender : Nat) (nm pty prop : String)
  | registerVoter (sender voterAddr : Nat)
  | startElection (sender durationInMinutes now : Nat)
  | vote (sender cid now : Nat)
  | endElection (sender now : Nat)

/-- Dispatch one operation. -/
def applyOp (s : VState) : Op → Except VotingError VState
  | .addCandidate sender nm pty prop => addCandidate s sender nm pty prop
  | .registerVoter sender voterAddr => registerVoter s sender voterAddr
  | .startElection sender d now => startElection s sender d now
  | .vote sender cid now => vote s sender cid now
  | .endElection sender now => endElection s sender now

/-- Run an operation with EVM revert semantics: a failed `require`
leaves the storage exactly as it was. -/
def exec (s : VState) (op : Op) : VState × Option VotingError :=
  match applyOp s op with
  | .ok s' => (s', none)
  | .error e => (s, some e)

/-- States reachable from deployment by any sequence of operations. -/
inductive Reachable (a : Nat) (nm : String) : VState → Prop where
  | deployed : Reachable a nm (deployVoting a nm)
  | step {s s' : VState} {op : Op} :
      Reachable a nm s → applyOp s op = .ok s' → Reachable a nm s'

/-- The spec's phase enumeration. -/
inductive Phase where
  | Created
  | Active
  | Ended
deriving DecidableEq

/-- The phase determined by the two contract flags. -/
def phase (s : VState) : Phase :=
  if s.electionEnded then .Ended
  else if s.electionStarted then .Active
  else .Created

/-- Sum of all candidates' vote counts. -/
def sumVoteCounts (l : List Candidate) : Nat :=
  (l.map (fun c => c.voteCount)).sum

/-!
API layer (`app.js`).  The Express routes validate requests before
submitting a transaction signed by the admin wallet; the admin wallet's
address is the contract deployer, i.e. `s.admin`.  A validation failure
returns an HTTP 400 and submits no transaction, so the chain state is
untouched; a contract revert surfaces as the `require` message.
-/

/-- Route `POST /api/candidates`: `express-validator` rejects an empty
`name`, `party` or `proposal` (in that order) before any transaction;
otherwise the admin wallet calls `addCandidate`. -/
def apiAddCandidate (s : VState) (nm pty prop : String) :
    Except String VState :=
  if nm = "" then .error "Candidate name is required"
  else if pty = "" then .error "Party name is required"
  else if prop = "" then .error "Proposal is required"
  else match addCandidate s s.admin nm pty prop with
    | .ok s' => .ok s'
    | .error e => .error (requireMessage e)

/-- Route `POST /api/election/start`: `isInt \x7bmin: 1\x7d` rejects any
`durationInMinutes` below 1 before any transaction; otherwise the admin
wallet calls `startElection`. -/
def apiStartElection (s : VState) (durationInMinutes : Int) (now : Nat) :
    Except String VState :=
  if durationInMinutes < 1 then .error "Duration must be a positive integer"
  else match startElection s s.admin durationInMinutes.toNat now with
    | .ok s' => .ok s'
    | .error e => .error (requireMessage e)

/-- One element of the `GET /api/results` response. -/
structure ResultEntry where
  id : Nat
  name : String
  voteCount : Nat
  percentage : String
deriving DecidableEq

/-- JavaScript `x.toFixed 2` for the non-negative values arising here,
modelled over exact rationals: the nearest multiple of `1/100`, halves
rounded up, printed with exactly two fractional digits.  (JS computes
with IEEE-754 doubles; the rational model is the idealisation of the
same formula.) -/
def toFixed2 (q : ℚ) : String :=
  let r : ℚ := q * 100 + 1 / 2
  let n : Nat := r.num.toNat / r.den
  toString (n / 100) ++ "." ++ (if n % 100 < 10 then "0" else "") ++ toString (n % 100)

/-- The percentage string of `GET /api/results`:
`(voteCount / totalVotes * 100).toFixed 2`, or `"0.00"` when
`totalVotes` is zero. -/
def percentageOf (voteCount totalVotes : Nat) : String :=
  if 0 < totalVotes then toFixed2 ((voteCount : ℚ) / (totalVotes : ℚ) * 100)
  else "0.00"

/-- The `formattedResults` loop of `GET /api/results`: walk the three
parallel arrays returned by `getResults`, building one entry per
candidate, in the contract's enumeration order. -/
def formatResults (ids : List Nat) (names : List String) (counts : List Nat)
    (totalVotes : Nat) : List ResultEntry :=
  (ids.zip (names.zip counts)).map (fun p =>
    { id := p.1, name := p.2.1, voteCount := p.2.2,
      percentage := percentageOf p.2.2 totalVotes })

/-- The JS comparator `(a, b) => b.voteCount - a.voteCount`: `a` stays
before `b` exactly when the comparator is non-positive. -/
def resultsCmp (a b : ResultEntry) : Bool := b.voteCount ≤ a.voteCount

/-- Route `GET /api/results`: 403 while the election has not ended; otherwise
the formatted entries, stably sorted by descending vote count
(`Array.prototype.sort` is stable, modelled by `List.mergeSort`),
together with `totalVotes`. -/
def apiResults (s : VState) : Except String (Nat × List ResultEntry) :=
  if ¬ s.electionEnded then .error "Election has not ended yet"
  else match getResults s with
    | .error e => .error (requireMessage e)
    | .ok (ids, names, counts) =>
        .ok (s.totalVotes, (formatResults ids names counts s.totalVotes).mergeSort resultsCmp)

/-- The entries of `GET /api/results` before sorting, for stating the
stability of the sort. -/
def unsortedResults (s : VState) : List ResultEntry :=
  match getResults s with
  | .error _ => []
  | .ok (ids, names, counts) => formatResults ids names counts s.totalVotes

/-- Route `GET /api/voters/:address/status`: `(isRegistered, hasVoted,
votedFor)`, where `votedFor` is the voted candidate id when the voter
has voted and `null` (`none`) otherwise. -/
def apiVoterStatus (s : VState) (addr : Nat) : Bool × Bool × Option Nat :=
  ((s.voters addr).isRegistered, hasVoted s addr,
    if hasVoted s addr then some (s.voters addr).votedCandidateId else none)

/-!  Characterisations of the successful runs of each operation. -/

theorem addCandidate_ok {s s' : VState} {sender : Nat} {nm pty prop : String}
    (h : addCandidate s sender nm pty prop = .ok s') :
    sender = s.admin ∧ s.electionStarted = false ∧
    s' = { s with candidates := s.candidates ++
      [{ id := s.candidates.length, name := nm, party := pty,
         proposal := prop, voteCount := 0 }] } := by
  unfold addCandidate at h
  split_ifs at h with h1 h2
  simp only [Except.ok.injEq] at h
  exact ⟨not_not.mp h1, Bool.eq_false_iff.mpr h2, h.symm⟩

theorem registerVoter_ok {s s' : VState} {sender voterAddr : Nat}
    (h : registerVoter s sender voterAddr = .ok s') :
    sender = s.admin ∧ (s.voters voterAddr).isRegistered = false ∧
    s' = { s with voters := (fun a =>
      if a = voterAddr then
        { s.voters voterAddr with isRegistered := true, hasVoted := false }
      else s.voters a) } := by
  unfold registerVoter at h
  split_ifs at h with h1 h2
  simp only [Except.ok.injEq] at h
  exact ⟨not_not.mp h1, Bool.eq_false_iff.mpr h2, h.symm⟩

theorem startElection_ok {s s' : VState} {sender d now : Nat}
    (h : startElection s sender d now = .ok s') :
    sender = s.admin ∧ s.electionStarted = false ∧ s.candidates.length ≠ 0 ∧
    s' = { s with electionStarted := true, startTime := now,
                  endTime := now + d * 60 } := by
  unfold startElection at h
  split_ifs at h with h1 h2 h3
  simp only [Except.ok.injEq] at h
  exact ⟨not_not.mp h1, Bool.eq_false_iff.mpr h2, h3, h.symm⟩

theorem vote_ok {s s' : VState} {sender cid now : Nat}
    (h : vote s sender cid now = .ok s') :
    s.electionStarted = true ∧ s.electionEnded = false ∧
    s.startTime ≤ now ∧ now ≤ s.endTime ∧
    (s.voters sender).isRegistered = true ∧
    (s.voters sender).hasVoted = false ∧
    cid < s.candidates.length ∧
    s' = { s with
      voters := (fun a =>
        if a = sender then
          { s.voters sender with hasVoted := true, votedCandidateId := cid }
        else s.voters a)
      candidates := incrementVoteCount s.candidates cid
      totalVotes := s.totalVotes + 1 } := by
  unfold vote at h
  split_ifs at h with h1 h2 h3 h4 h5 h6
  simp only [Except.ok.injEq] at h
  exact ⟨h1, Bool.eq_false_iff.mpr h2, h3.1, h3.2, h4,
    Bool.eq_false_iff.mpr h5, h6, h.symm⟩

theorem endElection_ok {s s' : VState} {sender now : Nat}
    (h : endElection s sender now = .ok s') :
    sender = s.admin ∧ s.electionStarted = true ∧ s.electionEnded = false ∧
    s.startTime ≤ now ∧ now ≤ s.endTime ∧
    s' = { s with electionEnded := true } := by
  unfold endElection at h
  split_ifs at h with h1 h2 h3 h4
  simp only [Except.ok.injEq] at h
  exact ⟨not_not.mp h1, h2, Bool.eq_false_iff.mpr h3, h4.1, h4.2, h.symm⟩

/-!  Arithmetic of the tally. -/

theorem sumVoteCounts_append (l : List Candidate) (c : Candidate) :
    sumVoteCounts (l ++ [c]) = sumVoteCounts l + c.voteCount := by
  simp [sumVoteCounts]

theorem sumVoteCounts_increment (l : List Candidate) (i : Nat)
    (h : i < l.length) :
    sumVoteCounts (incrementVoteCount l i) = sumVoteCounts l + 1 := by
  induction l generalizing i with
  | nil => simp at h
  | cons c cs ih =>
    cases i with
    | zero => simp [incrementVoteCount, sumVoteCounts]; omega
    | succ n =>
      simp only [incrementVoteCount, sumVoteCounts, List.map_cons, List.sum_cons]
      have := ih n (by simpa using h)
      simp only [sumVoteCounts] at this
      omega

/-- The inductive invariant of the contract: a voted voter is
registered, an ended election was started, and `totalVotes` counts both
the candidates' votes and the voters who voted. -/
structure VInv (s : VState) : Prop where
  hv_reg : ∀ v : Nat, (s.voters v).hasVoted = true → (s.voters v).isRegistered = true
  ended_started : s.electionEnded = true → s.electionStarted = true
  tally : s.totalVotes = sumVoteCounts s.candidates
  count : ∃ fs : Finset ℕ,
    (∀ v : ℕ, (s.voters v).hasVoted = true ↔ v ∈ fs) ∧ fs.card = s.totalVotes

theorem inv_deploy (a : Nat) (nm : String) : VInv (deployVoting a nm) := by
  refine ⟨?_, ?_, ?_, ⟨∅, ?_, ?_⟩⟩ <;>
    simp [deployVoting, initVoter, sumVoteCounts]

theorem inv_step {s s' : VState} {op : Op}
    (hs : VInv s) (h : applyOp s op = .ok s') : VInv s' := by
  cases op with
  | addCandidate sender nm pty prop =>
    obtain ⟨hadm, hst, rfl⟩ := addCandidate_ok h
    refine ⟨hs.hv_reg, hs.ended_started, ?_, hs.count⟩
    show s.totalVotes = sumVoteCounts (s.candidates ++ [_])
    rw [sumVoteCounts_append]
    simpa using hs.tally
  | registerVoter sender v =>
    obtain ⟨hadm, hreg, rfl⟩ := registerVoter_ok h
    have hnv : (s.voters v).hasVoted = false := by
      cases hb : (s.voters v).hasVoted with
      | false => rfl
      | true => exact absurd (hs.hv_reg v hb) (by simp [hreg])
    refine ⟨?_, hs.ended_started, hs.tally, ?_⟩
    · intro a ha
      by_cases hav : a = v
      · subst hav
        simp only [if_pos rfl] at ha
        exact absurd ha (by simp)
      · simp only [if_neg hav] at ha ⊢
        exact hs.hv_reg a ha
    · obtain ⟨fs, hiff, hcard⟩ := hs.count
      refine ⟨fs, ?_, hcard⟩
      intro a
      by_cases hav : a = v
      · subst hav
        show (if a = a then _ else _ : Voter).hasVoted = true ↔ _
        rw [if_pos rfl]
        constructor
        · intro hfalse
          exact absurd hfalse (by simp)
        · intro hmem
          exact absurd ((hiff a).mpr hmem) (by simp [hnv])
      · show (if a = v then _ else _ : Voter).hasVoted = true ↔ _
        rw [if_neg hav]
        exact hiff a
  | startElection sender d now =>
    obtain ⟨hadm, hst, hcand, rfl⟩ := startElection_ok h
    exact ⟨hs.hv_reg, fun _ => rfl, hs.tally, hs.count⟩
  | vote sender cid now =>
    obtain ⟨hst, hend, hlo, hhi, hreg, hnv, hcid, rfl⟩ := vote_ok h
    refine ⟨?_, hs.ended_started, ?_, ?_⟩
    · intro a ha
      by_cases hav : a = sender
      · subst hav
        show (if a = a then _ else _ : Voter).isRegistered = true
        rw [if_pos rfl]
        simpa using hreg
      · simp only [if_neg hav] at ha ⊢
        exact hs.hv_reg a ha
    · show s.totalVotes + 1 = sumVoteCounts (incrementVoteCount s.candidates cid)
      rw [sumVoteCounts_increment s.candidates cid hcid, ← hs.tally]
    · obtain ⟨fs, hiff, hcard⟩ := hs.count
      have hnotmem : sender ∉ fs := fun hmem =>
        absurd ((hiff sender).mpr hmem) (by simp [hnv])
      refine ⟨insert sender fs, ?_, ?_⟩
      · intro a
        by_cases hav : a = sender
        · subst hav
          show (if a = a then _ else _ : Voter).hasVoted = true ↔ _
          rw [if_pos rfl]
          simp
        · show (if a = sender then _ else _ : Voter).hasVoted = true ↔ _
          rw [if_neg hav, Finset.mem_insert, hiff a]
          simp [hav]
      · show (insert sender fs).card = s.totalVotes + 1
        rw [Finset.card_insert_of_not_mem hnotmem, hcard]
  | endElection sender now =>
    obtain ⟨hadm, hst, hend, hlo, hhi, rfl⟩ := endElection_ok h
    exact ⟨hs.hv_reg, fun _ => hst, hs.tally, hs.count⟩

theorem reachable_inv {a : Nat} {nm : String} {s : VState}
    (hr : Reachable a nm s) : VInv s := by
  induction hr with
  | deployed => exact inv_deploy a nm
  | step hr hok ih => exact inv_step ih hok

/-- Every successful operation can only move `electionStarted`,
`electionEnded` and each voter's `hasVoted` from `false` to `true`,
never back. -/
theorem step_mono {s s' : VState} {op : Op}
    (hs : VInv s) (h : applyOp s op = .ok s') :
    (s.electionStarted = true → s'.electionStarted = true) ∧
    (s.electionEnded = true → s'.electionEnded = true) ∧
    (∀ v : Nat, (s.voters v).hasVoted = true → (s'.voters v).hasVoted = true) := by
  cases op with
  | addCandidate sender nm pty prop =>
    obtain ⟨-, -, rfl⟩ := addCandidate_ok h
    exact ⟨id, id, fun v hv => hv⟩
  | registerVoter sender v =>
    obtain ⟨hadm, hreg, rfl⟩ := registerVoter_ok h
    refine ⟨id, id, ?_⟩
    intro a ha
    by_cases hav : a = v
    · subst hav
      exact absurd (hs.hv_reg a ha) (by simp [hreg])
    · show (if a = v then _ else _ : Voter).hasVoted = true
      rw [if_neg hav]
      exact ha
  | startElection sender d now =>
    obtain ⟨-, -, -, rfl⟩ := startElection_ok h
    exact ⟨fun _ => rfl, id, fun v hv => hv⟩
  | vote sender cid now =>
    obtain ⟨-, -, -, -, -, -, -, rfl⟩ := vote_ok h
    refine ⟨id, id, ?_⟩
    intro a ha
    by_cases hav : a = sender
    · subst hav
      show (if a = a then _ else _ : Voter).hasVoted = true
      rw [if_pos rfl]
    · show (if a = sender then _ else _ : Voter).hasVoted = true
      rw [if_neg hav]
      exact ha
  | endElection sender now =>
    obtain ⟨-, -, -, -, -, rfl⟩ := endElection_ok h
    exact ⟨id, fun _ => rfl, fun v hv => hv⟩

/-!
A concrete run, used to instantiate the theorems below: the admin
(address 0) deploys, adds candidates "A" and "B", registers voter 1,
starts a one-minute election at time 100, voter 1 votes for candidate
0 at time 100, and the admin ends the election at time 100.
-/

def demoS0 : VState := deployVoting 0 "E"
def demoS1 : VState := (exec demoS0 (Op.addCandidate 0 "A" "P" "Q")).1
def demoS2 : VState := (exec demoS1 (Op.addCandidate 0 "B" "R" "T")).1
def demoS3 : VState := (exec demoS2 (Op.registerVoter 0 1)).1
def demoS4 : VState := (exec demoS3 (Op.startElection 0 1 100)).1
def demoS5 : VState := (exec demoS4 (Op.vote 1 0 100)).1
def demoS6 : VState := (exec demoS5 (Op.endElection 0 100)).1

theorem demoS1_reachable : Reachable 0 "E" demoS1 :=
  @Reachable.step 0 "E" demoS0 demoS1 (Op.addCandidate 0 "A" "P" "Q")
    Reachable.deployed (by rfl)

theorem demoS2_reachable : Reachable 0 "E" demoS2 :=
  @Reachable.step 0 "E" demoS1 demoS2 (Op.addCandidate 0 "B" "R" "T")
    demoS1_reachable (by rfl)

theorem demoS3_reachable : Reachable 0 "E" demoS3 :=
  @Reachable.step 0 "E" demoS2 demoS3 (Op.registerVoter 0 1)
    demoS2_reachable (by rfl)

theorem demoS4_reachable : Reachable 0 "E" demoS4 :=
  @Reachable.step 0 "E" demoS3 demoS4 (Op.startElection 0 1 100)
    demoS3_reachable (by rfl)

theorem demoS5_reachable : Reachable 0 "E" demoS5 :=
  @Reachable.step 0 "E" demoS4 demoS5 (Op.vote 1 0 100)
    demoS4_reachable (by rfl)

theorem demoS6_reachable : Reachable 0 "E" demoS6 :=
  @Reachable.step 0 "E" demoS5 demoS6 (Op.endElection 0 100)
    demoS5_reachable (by rfl)

/-- Running an operation yields `(s, some e)` exactly when the
underlying call reverts with `e`. -/
theorem exec_error_eq {s : VState} {op : Op} {e : VotingError} :
    exec s op = (s, some e) ↔ applyOp s op = .error e := by
  unfold exec
  cases hap : applyOp s op with
  | ok s' => simp
  | error e' => simp

theorem phase_eq_ended_iff (s : VState) :
    phase s = Phase.Ended ↔ s.electionEnded = true := by
  unfold phase
  by_cases he : s.electionEnded = true
  · simp [he]
  · simp only [he, if_false]
    by_cases hs : s.electionStarted = true <;> simp [hs]

/-- C2: in every reachable state, `totalVotes` equals the sum of
`voteCount` over all candidates, and also equals the number of voters
whose `hasVoted` flag is set. -/
theorem c2_tally_consistency {a : Nat} {nm : String} {s : VState}
    (hr : Reachable a nm s) :
    s.totalVotes = sumVoteCounts s.candidates ∧
    {v : ℕ | (s.voters v).hasVoted = true}.Finite ∧
    {v : ℕ | (s.voters v).hasVoted = true}.ncard = s.totalVotes := by
  obtain ⟨hv, he, ht, ⟨fs, hiff, hcard⟩⟩ := reachable_inv hr
  have hset : {v : ℕ | (s.voters v).hasVoted = true} = ↑fs := by
    ext v
    simpa using hiff v
  refine ⟨ht, ?_, ?_⟩
  · rw [hset]
    exact fs.finite_toSet
  · rw [hset, Set.ncard_coe_Finset, hcard]

/-- C2 witness: the invariant instantiated on the concrete run, after
which one vote was cast. -/
theorem c2_tally_consistency_witness :
    demoS6.totalVotes = sumVoteCounts demoS6.candidates ∧
    {v : ℕ | (demoS6.voters v).hasVoted = true}.Finite ∧
    {v : ℕ | (demoS6.voters v).hasVoted = true}.ncard = demoS6.totalVotes :=
  c2_tally_consistency demoS6_reachable

/-- C3: along every reachable run the phase flags only move forward
(`Created → Active → Ended`); `startElection` reverts whenever the
phase is not `Created`, and `endElection` reverts whenever the phase is
not `Active`, each leaving the state unchanged. -/
theorem c3_phase_monotonic {a : Nat} {nm : String} {s : VState}
    (hr : Reachable a nm s) :
    (∀ (op : Op) (s' : VState), applyOp s op = .ok s' →
      (s.electionStarted = true → s'.electionStarted = true) ∧
      (s.electionEnded = true → s'.electionEnded = true)) ∧
    (phase s ≠ Phase.Created →
      ∀ sender d now, ∃ e, exec s (Op.startElection sender d now) = (s, some e)) ∧
    (phase s ≠ Phase.Active →
      ∀ sender now, ∃ e, exec s (Op.endElection sender now) = (s, some e)) := by
  have hinv := reachable_inv hr
  refine ⟨fun op s' h => ⟨(step_mono hinv h).1, (step_mono hinv h).2.1⟩, ?_, ?_⟩
  · intro hph sender d now
    have hst : s.electionStarted = true := by
      by_cases hse : s.electionEnded = true
      · exact hinv.ended_started hse
      · by_cases hss : s.electionStarted = true
        · exact hss
        · exact absurd (by unfold phase; simp [hse, hss]) hph
    by_cases hadm : sender ≠ s.admin
    · exact ⟨.onlyAdmin, exec_error_eq.mpr (by
        show startElection s sender d now = Except.error VotingError.onlyAdmin
        unfold startElection
        rw [if_pos hadm])⟩
    · exact ⟨.alreadyStarted, exec_error_eq.mpr (by
        show startElection s sender d now = Except.error VotingError.alreadyStarted
        unfold startElection
        rw [if_neg hadm, if_pos hst])⟩
  · intro hph sender now
    by_cases hadm : sender ≠ s.admin
    · exact ⟨.onlyAdmin, exec_error_eq.mpr (by
        show endElection s sender now = Except.error VotingError.onlyAdmin
        unfold endElection
        rw [if_pos hadm])⟩
    · by_cases hns : s.electionStarted = true
      · have hend : s.electionEnded = true := by
          by_cases hse : s.electionEnded = true
          · exact hse
          · exact absurd (by unfold phase; simp [hse, hns]) hph
        exact ⟨.alreadyEnded, exec_error_eq.mpr (by
          show endElection s sender now = Except.error VotingError.alreadyEnded
          unfold endElection
          rw [if_neg hadm, if_neg (not_not.mpr hns), if_pos hend])⟩
      · exact ⟨.notStarted, exec_error_eq.mpr (by
          show endElection s sender now = Except.error VotingError.notStarted
          unfold endElection
          rw [if_neg hadm, if_pos hns])⟩

/-- C3 witness: on the fully run election (phase `Ended`) both
transitions revert. -/
theorem c3_phase_monotonic_witness :
    (∀ (op : Op) (s' : VState), applyOp demoS6 op = .ok s' →
      (demoS6.electionStarted = true → s'.electionStarted = true) ∧
      (demoS6.electionEnded = true → s'.electionEnded = true)) ∧
    (phase demoS6 ≠ Phase.Created →
      ∀ sender d now, ∃ e, exec demoS6 (Op.startElection sender d now) = (demoS6, some e)) ∧
    (phase demoS6 ≠ Phase.Active →
      ∀ sender now, ∃ e, exec demoS6 (Op.endElection sender now) = (demoS6, some e)) :=
  c3_phase_monotonic demoS6_reachable

/-- C4: `getResults` reverts with `ElectionNotEnded` in every state
whose phase is not `Ended`, and in every phase-`Ended` state returns
the ids, names and vote counts of all candidates. -/
theorem c4_result_gating (s : VState) :
    (phase s ≠ Phase.Ended → getResults s = .error VotingError.notEnded) ∧
    (phase s = Phase.Ended →
      getResults s = .ok (s.candidates.map (fun c => c.id),
                          s.candidates.map (fun c => c.name),
                          s.candidates.map (fun c => c.voteCount))) := by
  constructor
  · intro h
    have hne : ¬ s.electionEnded = true := fun hc => h ((phase_eq_ended_iff s).mpr hc)
    unfold getResults
    rw [if_pos hne]
  · intro h
    unfold getResults
    rw [if_neg (not_not.mpr ((phase_eq_ended_iff s).mp h))]

/-- C4 witness: on the ended demo election the results are returned. -/
theorem c4_result_gating_witness :
    phase demoS6 = Phase.Ended ∧
    getResults demoS6 = .ok ([0, 1], ["A", "B"], [1, 0]) :=
  ⟨rfl, by rw [(c4_result_gating demoS6).2 rfl]; rfl⟩

/-- C5: `endElection` succeeds exactly when the caller is the admin,
the phase is `Active`, and the ledger time lies in `[startTime,
endTime]`; in particular an admin call after the window has elapsed
reverts with `ElectionNotActive` (`"Election is not active"`) and the
phase stays `Active`. -/
theorem c5_end_election_guard (s : VState) (sender now : Nat) :
    ((∃ s', endElection s sender now = .ok s') ↔
      (sender = s.admin ∧ s.electionStarted = true ∧ s.electionEnded = false ∧
       s.startTime ≤ now ∧ now ≤ s.endTime)) ∧
    (sender = s.admin → s.electionStarted = true → s.electionEnded = false →
     s.endTime < now →
      exec s (Op.endElection sender now) = (s, some VotingError.notActive) ∧
      phase s = Phase.Active) := by
  constructor
  · constructor
    · rintro ⟨s', hs'⟩
      obtain ⟨h1, h2, h3, h4, h5, -⟩ := endElection_ok hs'
      exact ⟨h1, h2, h3, h4, h5⟩
    · rintro ⟨h1, h2, h3, h4, h5⟩
      refine ⟨{ s with electionEnded := true }, ?_⟩
      unfold endElection
      rw [if_neg (not_not.mpr h1), if_neg (not_not.mpr h2),
        if_neg (by simp [h3]), if_neg (not_not.mpr ⟨h4, h5⟩)]
  · intro h1 h2 h3 h4
    constructor
    · apply exec_error_eq.mpr
      show endElection s sender now = .error .notActive
      unfold endElection
      rw [if_neg (not_not.mpr h1), if_neg (not_not.mpr h2),
        if_neg (by simp [h3]), if_pos (fun hw => absurd hw.2 (by omega))]
    · unfold phase
      rw [if_neg (by simp [h3]), if_pos h2]

/-- C5 witness: on the active demo election (window `[100, 160]`) an
admin call at time 200 reverts and the phase stays `Active`. -/
theorem c5_end_election_guard_witness :
    exec demoS4 (Op.endElection 0 200) = (demoS4, some VotingError.notActive) ∧
    phase demoS4 = Phase.Active :=
  (c5_end_election_guard demoS4 0 200).2 rfl rfl rfl (by decide)

/-- C8: `registerVoter` succeeds in every phase whenever the caller is
the admin and the record is not yet registered, setting
`isRegistered := true` and `hasVoted := false`; its only failure modes
are `Unauthorized` and `AlreadyRegistered`. -/
theorem c8_register_voter (s : VState) (sender v : Nat) :
    (sender = s.admin → (s.voters v).isRegistered = false →
      ∃ s', registerVoter s sender v = .ok s' ∧
        (s'.voters v).isRegistered = true ∧ (s'.voters v).hasVoted = false) ∧
    (∀ e, exec s (Op.registerVoter sender v) = (s, some e) →
      e = VotingError.onlyAdmin ∨ e = VotingError.alreadyRegistered) := by
  constructor
  · intro h1 h2
    refine ⟨{ s with voters := (fun a =>
        if a = v then { s.voters v with isRegistered := true, hasVoted := false }
        else s.voters a) }, ?_, ?_, ?_⟩
    · unfold registerVoter
      rw [if_neg (not_not.mpr h1), if_neg (by simp [h2])]
    · show (if v = v then _ else _ : Voter).isRegistered = true
      rw [if_pos rfl]
    · show (if v = v then _ else _ : Voter).hasVoted = false
      rw [if_pos rfl]
  · intro e he
    have h : registerVoter s sender v = .error e := exec_error_eq.mp he
    unfold registerVoter at h
    split_ifs at h with h1 h2
    · exact Or.inl (by simpa using h.symm)
    · exact Or.inr (by simpa using h.symm)

/-- C8 witness: registering voter 2 after the election has ended
(phase `Ended`) still succeeds. -/
theorem c8_register_voter_witness :
    phase demoS6 = Phase.Ended ∧
    (0 = demoS6.admin ∧ (demoS6.voters 2).isRegistered = false) ∧
    (∃ s', registerVoter demoS6 0 2 = .ok s' ∧
      (s'.voters 2).isRegistered = true ∧ (s'.voters 2).hasVoted = false) :=
  ⟨rfl, ⟨rfl, rfl⟩, (c8_register_voter demoS6 0 2).1 rfl rfl⟩

/-- C10: for every address whose record is unregistered in a reachable
state, the voter-status projection returns `isRegistered = false`,
`hasVoted = false` and `votedFor = null`; and `votedFor` is `null`
exactly when `hasVoted` is false. -/
theorem c10_voter_status {a : Nat} {nm : String} {s : VState}
    (hr : Reachable a nm s) (addr : Nat) :
    ((s.voters addr).isRegistered = false →
      apiVoterStatus s addr = (false, false, none)) ∧
    ((apiVoterStatus s addr).2.2 = none ↔ (s.voters addr).hasVoted = false) := by
  have hinv := reachable_inv hr
  have hkey : (s.voters addr).isRegistered = false → (s.voters addr).hasVoted = false := by
    intro h
    cases hb : (s.voters addr).hasVoted with
    | false => rfl
    | true => exact absurd (hinv.hv_reg addr hb) (by simp [h])
  constructor
  · intro h
    have hvv := hkey h
    unfold apiVoterStatus hasVoted
    rw [h, hvv]
    simp
  · unfold apiVoterStatus hasVoted
    cases hb : (s.voters addr).hasVoted with
    | false => simp [hb]
    | true => simp [hb]

/-- C10 witness: the never-registered address 7 on the demo run. -/
theorem c10_voter_status_witness :
    ((demoS6.voters 7).isRegistered = false →
      apiVoterStatus demoS6 7 = (false, false, none)) ∧
    ((apiVoterStatus demoS6 7).2.2 = none ↔ (demoS6.voters 7).hasVoted = false) :=
  c10_voter_status demoS6_reachable 7

/-- C1 counterexample: along a concrete reachable run, voter 1 has
voted and the election has then been ended; a second `vote` by voter 1
reverts with the `electionActive` guard's `"Election has already
ended"`, not with `AlreadyVoted`, refuting the claim's error
attribution (the state is still unchanged). -/
theorem c1_counterexample :
    Reachable 0 "E" demoS6 ∧
    (demoS6.voters 1).hasVoted = true ∧
    exec demoS6 (Op.vote 1 0 100) = (demoS6, some VotingError.alreadyEnded) ∧
    VotingError.alreadyEnded ≠ VotingError.alreadyVoted :=
  ⟨demoS6_reachable, rfl, rfl, by decide⟩

/-- C1 (amended): in every reachable state, `hasVoted v` never returns
to `false` (so it moves `false → true` at most once), and once it is
`true` every further `vote` by `v` reverts and leaves the state
unchanged — with `AlreadyVoted` whenever the `electionActive` guard
passes at the time of the call, and with one of the `ElectionNotActive`
failures otherwise. -/
theorem c1_single_vote {a : Nat} {nm : String} {s : VState}
    (hr : Reachable a nm s) (v : Nat)
    (hv : (s.voters v).hasVoted = true) :
    (∀ (op : Op) (s' : VState), applyOp s op = .ok s' →
      (s'.voters v).hasVoted = true) ∧
    (∀ cid now, ∃ e, exec s (Op.vote v cid now) = (s, some e) ∧
      ((s.electionStarted = true ∧ s.electionEnded = false ∧
        s.startTime ≤ now ∧ now ≤ s.endTime) →
          e = VotingError.alreadyVoted) ∧
      (¬ (s.electionStarted = true ∧ s.electionEnded = false ∧
          s.startTime ≤ now ∧ now ≤ s.endTime) →
          ElectionNotActive e ∧ e ≠ VotingError.alreadyVoted)) := by
  have hinv := reachable_inv hr
  constructor
  · intro op s' h
    exact (step_mono hinv h).2.2 v hv
  · intro cid now
    by_cases h1 : s.electionStarted = true
    · by_cases h2 : s.electionEnded = true
      · refine ⟨.alreadyEnded, exec_error_eq.mpr (by
          show vote s v cid now = Except.error VotingError.alreadyEnded
          unfold vote
          rw [if_neg (not_not.mpr h1), if_pos h2]), ?_, ?_⟩
        · rintro ⟨-, hend, -, -⟩
          exact absurd h2 (by simp [hend])
        · exact fun _ => ⟨by simp [ElectionNotActive], by decide⟩
      · by_cases h3 : s.startTime ≤ now ∧ now ≤ s.endTime
        · have hreg := hinv.hv_reg v hv
          refine ⟨.alreadyVoted, exec_error_eq.mpr (by
            show vote s v cid now = Except.error VotingError.alreadyVoted
            unfold vote
            rw [if_neg (not_not.mpr h1), if_neg h2, if_neg (not_not.mpr h3),
              if_neg (not_not.mpr hreg), if_pos hv]), fun _ => rfl, ?_⟩
          intro hng
          exact absurd ⟨h1, Bool.eq_false_iff.mpr h2, h3.1, h3.2⟩ hng
        · refine ⟨.notActive, exec_error_eq.mpr (by
            show vote s v cid now = Except.error VotingError.notActive
            unfold vote
            rw [if_neg (not_not.mpr h1), if_neg h2, if_pos h3]), ?_, ?_⟩
          · rintro ⟨-, -, hlo, hhi⟩
            exact absurd ⟨hlo, hhi⟩ h3
          · exact fun _ => ⟨by simp [ElectionNotActive], by decide⟩
    · refine ⟨.notStarted, exec_error_eq.mpr (by
        show vote s v cid now = Except.error VotingError.notStarted
        unfold vote
        rw [if_pos h1]), ?_, ?_⟩
      · rintro ⟨hst, -, -, -⟩
        exact absurd hst h1
      · exact fun _ => ⟨by simp [ElectionNotActive], by decide⟩

/-- C1 witness: voter 1 on the still-active state `demoS5`, where a
repeat vote reverts with `AlreadyVoted`. -/
theorem c1_single_vote_witness :
    (∀ (op : Op) (s' : VState), applyOp demoS5 op = .ok s' →
      (s'.voters 1).hasVoted = true) ∧
    (∀ cid now, ∃ e, exec demoS5 (Op.vote 1 cid now) = (demoS5, some e) ∧
      ((demoS5.electionStarted = true ∧ demoS5.electionEnded = false ∧
        demoS5.startTime ≤ now ∧ now ≤ demoS5.endTime) →
          e = VotingError.alreadyVoted) ∧
      (¬ (demoS5.electionStarted = true ∧ demoS5.electionEnded = false ∧
          demoS5.startTime ≤ now ∧ now ≤ demoS5.endTime) →
          ElectionNotActive e ∧ e ≠ VotingError.alreadyVoted)) :=
  c1_single_vote demoS5_reachable 1 rfl

/-- C6 counterexample: in the reachable phase-`Created` state with one
candidate, the contract's `startElection` called by the admin with
duration 0 (so `durationMinutes < 1`) is not rejected: it succeeds and
moves the phase to `Active`, refuting the claimed `InvalidDuration`
check. -/
theorem c6_counterexample :
    Reachable 0 "E" demoS1 ∧ phase demoS1 = Phase.Created ∧
    demoS1.candidates.length = 1 ∧
    startElection demoS1 0 0 100 =
      .ok { demoS1 with electionStarted := true, startTime := 100, endTime := 100 } ∧
    phase { demoS1 with electionStarted := true, startTime := 100, endTime := 100 } =
      Phase.Active :=
  ⟨demoS1_reachable, rfl, rfl, rfl, rfl⟩

/-- C6 (amended): the `durationMinutes ≥ 1` precondition is enforced
only by the API layer: `POST /api/election/start` rejects any
`durationInMinutes < 1` with a validation error before submitting any
transaction (so the phase stays `Created`), while the contract's
`startElection` itself performs no duration check and accepts
duration 0. -/
theorem c6_duration_validation (s : VState) (d : Int) (now : Nat) :
    (d < 1 → apiStartElection s d now = .error "Duration must be a positive integer") ∧
    (s.electionStarted = false → s.candidates.length ≠ 0 →
      ∃ s', startElection s s.admin 0 now = .ok s' ∧ s'.electionStarted = true) := by
  constructor
  · intro hd
    unfold apiStartElection
    rw [if_pos hd]
  · intro h1 h2
    refine ⟨{ s with electionStarted := true, startTime := now, endTime := now + 0 * 60 }, ?_, rfl⟩
    unfold startElection
    rw [if_neg (not_not.mpr rfl), if_neg (by simp [h1]), if_neg h2]

/-- C6 witness: duration −3 is rejected by the API on the one-candidate
`Created` state, while the contract accepts duration 0 there. -/
theorem c6_duration_validation_witness :
    ((-3 : Int) < 1 ∧
      apiStartElection demoS1 (-3) 100 = .error "Duration must be a positive integer") ∧
    (demoS1.electionStarted = false ∧ demoS1.candidates.length ≠ 0 ∧
      ∃ s', startElection demoS1 demoS1.admin 0 100 = .ok s' ∧
        s'.electionStarted = true) :=
  ⟨⟨by decide, (c6_duration_validation demoS1 (-3) 100).1 (by decide)⟩,
   rfl, by decide, (c6_duration_validation demoS1 (-3) 100).2 rfl (by decide)⟩

/-- C7 counterexample: the contract's `addCandidate`, called by the
admin in phase `Created` with all three fields empty, appends a
candidate anyway, refuting the claimed non-empty-field precondition at
the contract level. -/
theorem c7_counterexample :
    phase (deployVoting 0 "E") = Phase.Created ∧
    (deployVoting 0 "E").candidates.length = 0 ∧
    addCandidate (deployVoting 0 "E") 0 "" "" "" =
      .ok { deployVoting 0 "E" with candidates :=
        [{ id := 0, name := "", party := "", proposal := "", voteCount := 0 }] } ∧
    ({ deployVoting 0 "E" with candidates :=
        [{ id := 0, name := "", party := "", proposal := "", voteCount := 0 }] } :
      VState).candidates.length = 1 :=
  ⟨rfl, rfl, rfl, rfl⟩

/-- C7 (amended): the non-empty-field precondition is enforced only by
the API layer: `POST /api/candidates` rejects a request with an empty
`name`, `party` or `proposal` before submitting any transaction (so no
candidate is appended), while the contract's `addCandidate` itself
performs no emptiness check and appends a candidate for the admin in
phase `Created` regardless of the field contents. -/
theorem c7_field_validation (s : VState) (nm pty prop : String) :
    ((nm = "" ∨ pty = "" ∨ prop = "") →
      ∃ msg, apiAddCandidate s nm pty prop = .error msg) ∧
    (s.electionStarted = false →
      ∃ s', addCandidate s s.admin nm pty prop = .ok s' ∧
        s'.candidates.length = s.candidates.length + 1) := by
  constructor
  · intro h
    unfold apiAddCandidate
    by_cases h1 : nm = ""
    · exact ⟨_, by rw [if_pos h1]⟩
    · by_cases h2 : pty = ""
      · exact ⟨_, by rw [if_neg h1, if_pos h2]⟩
      · have h3 : prop = "" := by tauto
        exact ⟨_, by rw [if_neg h1, if_neg h2, if_pos h3]⟩
  · intro h1
    refine ⟨{ s with candidates := s.candidates ++
      [{ id := s.candidates.length, name := nm, party := pty,
         proposal := prop, voteCount := 0 }] }, ?_, ?_⟩
    · unfold addCandidate
      rw [if_neg (not_not.mpr rfl), if_neg (by simp [h1])]
    · show (s.candidates ++ [_]).length = s.candidates.length + 1
      simp

/-- C7 witness: an empty name is rejected by the API on the freshly
deployed state, while the contract appends the candidate. -/
theorem c7_field_validation_witness :
    ("" = "" ∨ "x" = "" ∨ "y" = "") ∧
    (∃ msg, apiAddCandidate (deployVoting 0 "E") "" "x" "y" = .error msg) ∧
    ((deployVoting 0 "E").electionStarted = false ∧
      ∃ s', addCandidate (deployVoting 0 "E") (deployVoting 0 "E").admin "" "x" "y" = .ok s' ∧
        s'.candidates.length = (deployVoting 0 "E").candidates.length + 1) :=
  ⟨Or.inl rfl, (c7_field_validation (deployVoting 0 "E") "" "x" "y").1 (Or.inl rfl),
   rfl, (c7_field_validation (deployVoting 0 "E") "" "x" "y").2 rfl⟩

/-!  The JS sort comparator is a transitive, total preorder, so
`List.mergeSort` (a stable sort, like ES2019 `Array.prototype.sort`)
applies. -/

theorem resultsCmp_trans : ∀ (a b c : ResultEntry),
    resultsCmp a b → resultsCmp b c → resultsCmp a c := by
  intro a b c hab hbc
  simp only [resultsCmp, decide_eq_true_eq] at hab hbc ⊢
  omega

theorem resultsCmp_total : ∀ (a b : ResultEntry),
    resultsCmp a b || resultsCmp b a := by
  intro a b
  simp only [resultsCmp]
  rcases Nat.le_total b.voteCount a.voteCount with h | h
  · simp [h]
  · simp [h]

/-- Stability of the sort, stated as the spec does: within each tie
class (a fixed vote count) the sorted output lists the entries in
exactly the order of the unsorted enumeration. -/
theorem mergeSort_filter_voteCount (l : List ResultEntry) (k : Nat) :
    (l.mergeSort resultsCmp).filter (fun e => e.voteCount == k) =
      l.filter (fun e => e.voteCount == k) := by
  have hpair : (l.filter (fun e => e.voteCount == k)).Pairwise
      (fun a b => resultsCmp a b) := by
    apply List.pairwise_of_forall_mem_list
    intro a ha b hb
    have ha' := (List.mem_filter.mp ha).2
    have hb' := (List.mem_filter.mp hb).2
    simp only [beq_iff_eq] at ha' hb'
    simp [resultsCmp, ha', hb']
  have hsub : List.Sublist (l.filter (fun e => e.voteCount == k))
      (l.mergeSort resultsCmp) :=
    List.sublist_mergeSort resultsCmp_trans resultsCmp_total hpair
      (List.filter_sublist l)
  have hself : (l.filter (fun e => e.voteCount == k)).filter
      (fun e => e.voteCount == k) = l.filter (fun e => e.voteCount == k) :=
    List.filter_eq_self.mpr (fun a ha => (List.mem_filter.mp ha).2)
  have hsub2 : List.Sublist (l.filter (fun e => e.voteCount == k))
      ((l.mergeSort resultsCmp).filter (fun e => e.voteCount == k)) := by
    have := hsub.filter (fun e => e.voteCount == k)
    rwa [hself] at this
  have hperm : List.Perm ((l.mergeSort resultsCmp).filter (fun e => e.voteCount == k))
      (l.filter (fun e => e.voteCount == k)) :=
    (List.mergeSort_perm l resultsCmp).filter _
  exact (hsub2.eq_of_length hperm.length_eq.symm).symm

/-- Every produced entry's percentage field is the percentage formula
applied to its own vote count. -/
theorem formatResults_percentage {ids : List Nat} {names : List String}
    {counts : List Nat} {tv : Nat} {e : ResultEntry}
    (he : e ∈ formatResults ids names counts tv) :
    e.percentage = percentageOf e.voteCount tv := by
  unfold formatResults at he
  obtain ⟨p, hp, rfl⟩ := List.mem_map.mp he
  rfl

/-- C9: once the election has ended, `GET /api/results` returns the
candidates sorted by descending vote count, the sort is stable (within
each tie class the contract's enumeration order is kept, with no
secondary key), and every entry's percentage is
`voteCount / totalVotes * 100` rendered to two decimals — `"0.00"` for
everyone when `totalVotes = 0`. -/
theorem c9_results_projection (s : VState) (hEnd : s.electionEnded = true) :
    ∃ out, apiResults s = .ok (s.totalVotes, out) ∧
      out.Pairwise (fun a b => b.voteCount ≤ a.voteCount) ∧
      (∀ k : Nat, out.filter (fun e => e.voteCount == k) =
        (unsortedResults s).filter (fun e => e.voteCount == k)) ∧
      (∀ e ∈ out, e.percentage =
        if s.totalVotes = 0 then "0.00"
        else toFixed2 ((e.voteCount : ℚ) / (s.totalVotes : ℚ) * 100)) := by
  have hg : getResults s = .ok (s.candidates.map (fun c => c.id),
      s.candidates.map (fun c => c.name),
      s.candidates.map (fun c => c.voteCount)) := by
    unfold getResults
    rw [if_neg (not_not.mpr hEnd)]
  refine ⟨(formatResults (s.candidates.map (fun c => c.id))
      (s.candidates.map (fun c => c.name))
      (s.candidates.map (fun c => c.voteCount)) s.totalVotes).mergeSort resultsCmp,
    ?_, ?_, ?_, ?_⟩
  · unfold apiResults
    rw [if_neg (not_not.mpr hEnd), hg]
  · exact (List.sorted_mergeSort resultsCmp_trans resultsCmp_total _).imp
      (fun h => by simpa [resultsCmp] using h)
  · intro k
    rw [mergeSort_filter_voteCount]
    have hu : unsortedResults s = formatResults (s.candidates.map (fun c => c.id))
        (s.candidates.map (fun c => c.name))
        (s.candidates.map (fun c => c.voteCount)) s.totalVotes := by
      unfold unsortedResults
      rw [hg]
    rw [hu]
  · intro e he
    rw [formatResults_percentage (List.mem_mergeSort.mp he)]
    unfold percentageOf
    by_cases h0 : s.totalVotes = 0
    · rw [if_neg (by omega), if_pos h0]
    · rw [if_pos (by omega), if_neg h0]

/-- C9 witness: the projection on the completed demo election, where
candidate "A" (1 vote, 100.00) precedes candidate "B" (0 votes,
0.00). -/
theorem c9_results_projection_witness :
    ∃ out, apiResults demoS6 = .ok (demoS6.totalVotes, out) ∧
      out.Pairwise (fun a b => b.voteCount ≤ a.voteCount) ∧
      (∀ k : Nat, out.filter (fun e => e.voteCount == k) =
        (unsortedResults demoS6).filter (fun e => e.voteCount == k)) ∧
      (∀ e ∈ out, e.percentage =
        if demoS6.totalVotes = 0 then "0.00"
        else toFixed2 ((e.voteCount : ℚ) / (demoS6.totalVotes : ℚ) * 100)) :=
  c9_results_projection demoS6 rfl
